import Mathlib

/-!
Verification of the space-shooting-game repository.

The JavaScript sources (src/Player.js, src/Projectile.js, src/Enemy.js,
src/Particle.js, src/InputHandler.js, src/ScoreManager.js and the game loop in
src/game.js) are shallowly embedded below.  JavaScript floating-point numbers
are modelled as real numbers; every call of Math.random() becomes an explicit
oracle argument in [0,1); the GSAP radius tween is modelled as an immediate
assignment of its target value, which the spec's data-model section explicitly
allows as an implementation of the shrink.
-/

noncomputable section GameDefs

open scoped Classical

/-- Math.hypot of two arguments: the Euclidean norm used by every
circle-circle distance test in game.js. -/
def hypot (x y : ℝ) : ℝ := Real.sqrt (x ^ 2 + y ^ 2)

/-- Math.atan2(y, x): the two-argument arctangent, realised as the complex
argument of x + y i.  Like the JavaScript function it returns 0 at (0, 0). -/
def atan2 (y x : ℝ) : ℝ := Complex.arg ⟨x, y⟩

/-- An HSL colour as produced by the template string in spawnOneEnemy. -/
structure Hsl where
  hue : ℝ
  sat : ℝ
  light : ℝ

/-- Player.js: the player circle.  The constructor in startGame sets
radius 10, colour white and the class body sets speed 3. -/
structure Player where
  x : ℝ
  y : ℝ
  radius : ℝ
  color : String
  speed : ℝ

/-- Player.update: move by direction * speed, then clamp each axis to
[radius, dimension - radius] exactly as Player.js does with
Math.max(radius, Math.min(dimension - radius, position)). -/
def Player.update (p : Player) (dir : ℝ × ℝ) (w h : ℝ) : Player :=
  let nx := p.x + dir.1 * p.speed
  let ny := p.y + dir.2 * p.speed
  { p with
    x := max p.radius (min (w - p.radius) nx)
    y := max p.radius (min (h - p.radius) ny) }

/-- Projectile.js: position, radius, colour and a per-frame velocity. -/
structure Projectile where
  x : ℝ
  y : ℝ
  radius : ℝ
  color : String
  vx : ℝ
  vy : ℝ

/-- Projectile.update: position += velocity. -/
def Projectile.update (p : Projectile) : Projectile :=
  { p with x := p.x + p.vx, y := p.y + p.vy }

/-- Enemy.js: position, mutable radius, HSL colour, per-frame velocity. -/
structure Enemy where
  x : ℝ
  y : ℝ
  radius : ℝ
  color : Hsl
  vx : ℝ
  vy : ℝ

/-- Enemy.update: position += velocity. -/
def Enemy.update (e : Enemy) : Enemy :=
  { e with x := e.x + e.vx, y := e.y + e.vy }

/-- Particle.js: position, radius, colour, velocity, alpha (opacity) and the
friction coefficient, which the constructor fixes at 0.98. -/
structure Particle where
  x : ℝ
  y : ℝ
  radius : ℝ
  color : Hsl
  vx : ℝ
  vy : ℝ
  alpha : ℝ
  friction : ℝ

/-- Particle.update: velocity *= friction, then position += velocity, then
alpha -= 0.01, in the order written in Particle.js. -/
def Particle.update (p : Particle) : Particle :=
  let nvx := p.vx * p.friction
  let nvy := p.vy * p.friction
  { p with
    vx := nvx
    vy := nvy
    x := p.x + nvx
    y := p.y + nvy
    alpha := p.alpha - 0.01 }

/-- The off-screen test of the projectile pass in animate: the projectile's
bounding circle must be fully outside the canvas on one of the four edges. -/
def isOffScreen (w h : ℝ) (p : Projectile) : Prop :=
  p.x + p.radius < 0 ∨ p.x - p.radius > w ∨ p.y + p.radius < 0 ∨ p.y - p.radius > h

/-- Player-enemy collision test of animate:
Math.hypot(dx, dy) - player.radius - enemy.radius < 1. -/
def overlapsPlayer (pl : Player) (e : Enemy) : Prop :=
  hypot (pl.x - e.x) (pl.y - e.y) - pl.radius - e.radius < 1

/-- Projectile-enemy collision test of animate:
Math.hypot(dx, dy) - enemy.radius - projectile.radius < 1. -/
def projectileHits (p : Projectile) (e : Enemy) : Prop :=
  hypot (p.x - e.x) (p.y - e.y) - e.radius - p.radius < 1

/-- The raw, pre-normalization axis sums of InputHandler.getDirection.
The pressed-key set is modelled as the list of e.code strings it contains. -/
def rawDirection (ks : List String) : ℤ × ℤ :=
  let dy1 : ℤ := if "KeyW" ∈ ks ∨ "ArrowUp" ∈ ks then -1 else 0
  let dy2 : ℤ := if "KeyS" ∈ ks ∨ "ArrowDown" ∈ ks then 1 else 0
  let dx1 : ℤ := if "KeyA" ∈ ks ∨ "ArrowLeft" ∈ ks then -1 else 0
  let dx2 : ℤ := if "KeyD" ∈ ks ∨ "ArrowRight" ∈ ks then 1 else 0
  let q : ℤ × ℤ := if "KeyQ" ∈ ks then (-1, -1) else (0, 0)
  let e : ℤ × ℤ := if "KeyE" ∈ ks then (1, -1) else (0, 0)
  let z : ℤ × ℤ := if "KeyZ" ∈ ks then (-1, 1) else (0, 0)
  let c : ℤ × ℤ := if "KeyC" ∈ ks then (1, 1) else (0, 0)
  (dx1 + dx2 + q.1 + e.1 + z.1 + c.1, dy1 + dy2 + q.2 + e.2 + z.2 + c.2)

/-- At least one of the twelve mapped movement keys is held. -/
def movementKeyHeld (ks : List String) : Prop :=
  "KeyW" ∈ ks ∨ "ArrowUp" ∈ ks ∨ "KeyS" ∈ ks ∨ "ArrowDown" ∈ ks ∨
  "KeyA" ∈ ks ∨ "ArrowLeft" ∈ ks ∨ "KeyD" ∈ ks ∨ "ArrowRight" ∈ ks ∨
  "KeyQ" ∈ ks ∨ "KeyE" ∈ ks ∨ "KeyZ" ∈ ks ∨ "KeyC" ∈ ks

/-- InputHandler.getDirection: sum the axis contributions of all held keys,
then divide by the magnitude when it is positive. -/
def getDirection (ks : List String) : ℝ × ℝ :=
  let d := rawDirection ks
  let dx : ℝ := d.1
  let dy : ℝ := d.2
  let magnitude := hypot dx dy
  if 0 < magnitude then (dx / magnitude, dy / magnitude) else (dx, dy)

/-- getSpawnDelay in game.js: Math.max(200, 1000 - (currentLevel - 1) * 75),
in milliseconds. -/
def getSpawnDelay (lvl : ℕ) : ℤ :=
  max 200 (1000 - ((lvl : ℤ) - 1) * 75)

/-- getEnemySpeed in game.js: 1 + (currentLevel - 1) * 0.2, the per-level
speed multiplier.  The float literal 0.2 is embedded as the exact rational. -/
def getEnemySpeed (lvl : ℕ) : ℚ :=
  1 + ((lvl : ℚ) - 1) * 0.2

/-- The five Math.random() results consumed by one call of spawnOneEnemy,
in call order: radius draw, edge-axis draw, then the two draws of the chosen
branch, and finally the hue draw.  Each is a real in [0,1). -/
structure SpawnDraws where
  r1 : ℝ
  r2 : ℝ
  r3 : ℝ
  r4 : ℝ
  r5 : ℝ

/-- spawnOneEnemy in game.js, with the random draws made explicit.  The
radius is r1 * (30 - 4) + 4; a vertical edge (left or right, offset outward
by the radius) is chosen when r2 < 0.5, a horizontal edge otherwise; the hue
is r5 * 360 at 50% saturation and lightness; the velocity is the unit vector
of the angle from the spawn point to the player's current position, scaled
by getEnemySpeed of the current level. -/
def spawnEnemy (w h : ℝ) (pl : Player) (lvl : ℕ) (d : SpawnDraws) : Enemy :=
  let radius := d.r1 * (30 - 4) + 4
  let pos : ℝ × ℝ :=
    if d.r2 < 0.5 then
      (if d.r3 < 0.5 then 0 - radius else w + radius, d.r4 * h)
    else
      (d.r3 * w, if d.r4 < 0.5 then 0 - radius else h + radius)
  let angleToPlayer := atan2 (pl.y - pos.2) (pl.x - pos.1)
  let speedMultiplier : ℝ := (getEnemySpeed lvl : ℚ)
  { x := pos.1
    y := pos.2
    radius := radius
    color := ⟨d.r5 * 360, 50, 50⟩
    vx := Real.cos angleToPlayer * speedMultiplier
    vy := Real.sin angleToPlayer * speedMultiplier }

/-- One requested particle burst: the position and colour handed to
spawnExplosion together with the particle count (8 or 24). -/
structure Burst where
  x : ℝ
  y : ℝ
  color : Hsl
  count : ℕ

/-- spawnExplosion in game.js: count particles at the burst position, each
using three Math.random() draws (angle, speed, radius), sharing the
triggering colour, with alpha 1 and friction 0.98 from the Particle
constructor. -/
def spawnExplosion (rand : ℕ → ℝ × ℝ × ℝ) (b : Burst) : List Particle :=
  (List.range b.count).map fun i =>
    let randomAngle := (rand i).1 * Real.pi * 2
    let randomSpeed := (rand i).2.1 * 5 + 1
    let particleRadius := (rand i).2.2 * 2 + 1
    { x := b.x
      y := b.y
      radius := particleRadius
      color := b.color
      vx := Real.cos randomAngle * randomSpeed
      vy := Real.sin randomAngle * randomSpeed
      alpha := 1
      friction := 0.98 }

/-- The projectile pass of animate: update each projectile, drop the ones
whose updated bounding circle is fully off-screen.  The backwards splice
loop of the source keeps exactly the survivors in order, which this
recursion reproduces. -/
def stepProjectiles (w h : ℝ) : List Projectile → List Projectile
  | [] => []
  | p :: rest =>
    let p2 := Projectile.update p
    if isOffScreen w h p2 then stepProjectiles w h rest
    else p2 :: stepProjectiles w h rest

/-- The particle pass of animate: update each particle, drop the ones whose
updated alpha is ≤ 0. -/
def stepParticles : List Particle → List Particle
  | [] => []
  | p :: rest =>
    let p2 := Particle.update p
    if p2.alpha ≤ 0 then stepParticles rest
    else p2 :: stepParticles rest

/-- The outcome of one enemy's inner projectile loop in animate: the
projectiles surviving the splices, the enemy itself (none when destroyed),
the score added (10 per shrink, 100 for a kill) and the bursts requested. -/
structure HitResult where
  remaining : List Projectile
  enemyAfter : Option Enemy
  scoreDelta : ℕ
  bursts : List Burst

/-- The inner projectile loop of animate for one enemy.  The list argument is
in the order the backwards loop visits it.  On an overlap with a large enemy
(radius - 10 > 5) the radius shrinks by 10 (the GSAP tween modelled as an
immediate assignment), 10 points and an 8-particle burst are recorded and
the projectile is spliced out; otherwise 100 points and a 24-particle burst
are recorded, the enemy and the projectile are removed and the loop breaks,
leaving the rest of the projectiles untested. -/
def checkProjectiles (e : Enemy) : List Projectile → HitResult
  | [] => ⟨[], some e, 0, []⟩
  | p :: rest =>
    if projectileHits p e then
      if 5 < e.radius - 10 then
        let r := checkProjectiles { e with radius := e.radius - 10 } rest
        ⟨r.remaining, r.enemyAfter, 10 + r.scoreDelta, ⟨e.x, e.y, e.color, 8⟩ :: r.bursts⟩
      else
        ⟨rest, none, 100, [⟨e.x, e.y, e.color, 24⟩]⟩
    else
      let r := checkProjectiles e rest
      ⟨p :: r.remaining, r.enemyAfter, r.scoreDelta, r.bursts⟩

/-- The result of the enemy pass of animate: whether the terminal
player-enemy collision fired, plus the surviving enemies (in visit order),
the projectiles left, the score added and the bursts requested. -/
structure TickResult where
  gameOver : Bool
  enemies : List Enemy
  projectiles : List Projectile
  scoreDelta : ℕ
  bursts : List Burst

/-- The enemy pass of animate, visiting enemies in the order of the
backwards loop.  Each enemy is updated, then distance-tested against the
player: on overlap the function returns immediately with gameOver set,
leaving the remaining enemies untouched, exactly like the early return in
the source.  Otherwise the enemy runs its projectile loop and the pass
continues with the spliced projectile list. -/
def processEnemies (pl : Player) : List Projectile → List Enemy → TickResult
  | ps, [] => ⟨false, [], ps, 0, []⟩
  | ps, e :: rest =>
    let e2 := Enemy.update e
    if overlapsPlayer pl e2 then ⟨true, e2 :: rest, ps, 0, []⟩
    else
      let r := checkProjectiles e2 ps
      let t := processEnemies pl r.remaining rest
      { t with
        enemies := (match r.enemyAfter with
          | some e3 => e3 :: t.enemies
          | none => t.enemies)
        scoreDelta := r.scoreDelta + t.scoreDelta
        bursts := r.bursts ++ t.bursts }

/-- The whole per-session state owned by startGame: the player, the three
entity collections, the score and level of the ScoreManager, one flag per
scheduled activity (animation frame, spawn timeout, level interval), one
flag per registered listener, and the score the end-of-session callback was
invoked with, if any. -/
structure SessionState where
  player : Player
  projectiles : List Projectile
  enemies : List Enemy
  particles : List Particle
  score : ℕ
  level : ℕ
  animActive : Bool
  spawnActive : Bool
  levelActive : Bool
  clickAttached : Bool
  moveAttached : Bool
  spaceKeyAttached : Bool
  inputKeysAttached : Bool
  finalScore : Option ℕ

/-- Materialise the particles of a list of bursts, giving each burst its own
random oracle. -/
def burstParticles (draws : ℕ → ℕ → ℝ × ℝ × ℝ) (bs : List Burst) : List Particle :=
  (bs.enum.map fun ib => spawnExplosion (draws ib.1) ib.2).flatten

/-- One invocation of animate: update and clamp the player from the input
direction, run the projectile, particle and enemy passes, append the
requested bursts, and add the score.  When the enemy pass reports the
terminal collision, the frame loop, the spawn timeout and the level interval
are cancelled, every listener is detached and endGame receives the current
score; the HUD draw and everything after the early return is skipped. -/
def animateTick (w h : ℝ) (dir : ℝ × ℝ) (draws : ℕ → ℕ → ℝ × ℝ × ℝ)
    (s : SessionState) : SessionState :=
  let pl := Player.update s.player dir w h
  let ps1 := stepProjectiles w h s.projectiles
  let parts1 := stepParticles s.particles
  let t := processEnemies pl ps1 s.enemies.reverse
  if t.gameOver then
    { player := pl
      projectiles := t.projectiles
      enemies := t.enemies.reverse
      particles := parts1 ++ burstParticles draws t.bursts
      score := s.score + t.scoreDelta
      level := s.level
      animActive := false
      spawnActive := false
      levelActive := false
      clickAttached := false
      moveAttached := false
      spaceKeyAttached := false
      inputKeysAttached := false
      finalScore := some (s.score + t.scoreDelta) }
  else
    { s with
      player := pl
      projectiles := t.projectiles
      enemies := t.enemies.reverse
      particles := parts1 ++ burstParticles draws t.bursts
      score := s.score + t.scoreDelta }

/-- The spawn timeout callback: push one freshly spawned enemy aimed at the
player's current position, using the current level. -/
def doSpawn (w h : ℝ) (d : SpawnDraws) (s : SessionState) : SessionState :=
  { s with enemies := s.enemies ++ [spawnEnemy w h s.player s.level d] }

/-- The level interval callback: currentLevel++ and scoreManager.setLevel. -/
def doLevelUp (s : SessionState) : SessionState :=
  { s with level := s.level + 1 }

/-- The three recurring activities startGame schedules, with their inputs. -/
inductive GameEvent where
  | frame (dir : ℝ × ℝ) (draws : ℕ → ℕ → ℝ × ℝ × ℝ)
  | spawnTimer (d : SpawnDraws)
  | levelTimer

/-- Scheduler-level step: a callback only runs while its activity is still
scheduled; a cancelled activity leaves the session state untouched. -/
def stepEvent (w h : ℝ) (s : SessionState) : GameEvent → SessionState
  | .frame dir draws => if s.animActive then animateTick w h dir draws s else s
  | .spawnTimer d => if s.spawnActive then doSpawn w h d s else s
  | .levelTimer => if s.levelActive then doLevelUp s else s

/-- startGame in game.js: a fresh session with the player centred (radius 10,
colour white, speed 3 from Player.js), empty entity collections, score 0 and
level 1 from the ScoreManager constructor, all three activities scheduled
and all listeners attached. -/
def initSession (w h : ℝ) : SessionState :=
  { player := ⟨w / 2, h / 2, 10, "white", 3⟩
    projectiles := []
    enemies := []
    particles := []
    score := 0
    level := 1
    animActive := true
    spawnActive := true
    levelActive := true
    clickAttached := true
    moveAttached := true
    spaceKeyAttached := true
    inputKeysAttached := true
    finalScore := none }

/-- The restart button handler: it calls startGame again on the same canvas,
constructing fresh state; nothing of the ended session is consulted. -/
def restartSession (_old : SessionState) (w h : ℝ) : SessionState :=
  initSession w h

/-- fireProjectile in game.js: a radius-5 white projectile at the player's
current position whose velocity is the unit vector toward the target scaled
by 5, via Math.atan2 / cos / sin. -/
def fireProjectile (pl : Player) (targetX targetY : ℝ) : Projectile :=
  let angleToTarget := atan2 (targetY - pl.y) (targetX - pl.x)
  { x := pl.x
    y := pl.y
    radius := 5
    color := "white"
    vx := Real.cos angleToTarget * 5
    vy := Real.sin angleToTarget * 5 }

/-- The click / spacebar handlers: push exactly one new projectile. -/
def fireAt (s : SessionState) (targetX targetY : ℝ) : SessionState :=
  { s with projectiles := s.projectiles ++ [fireProjectile s.player targetX targetY] }

end GameDefs

theorem hypot_nonneg (x y : ℝ) : 0 ≤ hypot x y :=
  Real.sqrt_nonneg _

theorem hypot_pos {x y : ℝ} (h : ¬(x = 0 ∧ y = 0)) : 0 < hypot x y := by
  have hxy : 0 < x ^ 2 + y ^ 2 := by
    rcases not_and_or.mp h with hx | hy
    · have h1 : 0 < x ^ 2 := by positivity
      nlinarith [sq_nonneg y]
    · have h1 : 0 < y ^ 2 := by positivity
      nlinarith [sq_nonneg x]
  exact Real.sqrt_pos.mpr hxy

theorem hypot_scale (c x y : ℝ) (hc : 0 ≤ c) :
    hypot (c * x) (c * y) = c * hypot x y := by
  unfold hypot
  rw [mul_pow, mul_pow, ← mul_add, Real.sqrt_mul (sq_nonneg c), Real.sqrt_sq hc]

theorem hypot_unit {x y : ℝ} (h : ¬(x = 0 ∧ y = 0)) :
    hypot (x / hypot x y) (y / hypot x y) = 1 := by
  have hm := hypot_pos h
  rw [div_eq_mul_inv, div_eq_mul_inv, mul_comm x, mul_comm y,
    hypot_scale _ _ _ (inv_nonneg.mpr hm.le), inv_mul_cancel₀ hm.ne']

theorem hypot_cos_sin (θ c : ℝ) (hc : 0 ≤ c) :
    hypot (Real.cos θ * c) (Real.sin θ * c) = c := by
  rw [mul_comm (Real.cos θ) c, mul_comm (Real.sin θ) c, hypot_scale c _ _ hc]
  unfold hypot
  rw [Real.cos_sq_add_sin_sq, Real.sqrt_one, mul_one]

theorem mem_stepParticles {ps : List Particle} {q : Particle} :
    q ∈ stepParticles ps ↔ ∃ p ∈ ps, Particle.update p = q ∧ ¬q.alpha ≤ 0 := by
  induction ps with
  | nil => simp [stepParticles]
  | cons p rest ih =>
    simp only [stepParticles]
    by_cases h : (Particle.update p).alpha ≤ 0
    · simp only [if_pos h, ih, List.mem_cons]
      constructor
      · rintro ⟨p2, hp2, hup, ha⟩
        exact ⟨p2, Or.inr hp2, hup, ha⟩
      · rintro ⟨p2, hp2 | hp2, hup, ha⟩
        · subst hp2
          exact absurd (hup ▸ h) ha
        · exact ⟨p2, hp2, hup, ha⟩
    · simp only [if_neg h, List.mem_cons, ih]
      constructor
      · rintro (rfl | ⟨p2, hp2, hup, ha⟩)
        · exact ⟨p, Or.inl rfl, rfl, h⟩
        · exact ⟨p2, Or.inr hp2, hup, ha⟩
      · rintro ⟨p2, hp2 | hp2, hup, ha⟩
        · subst hp2
          exact Or.inl hup.symm
        · exact Or.inr ⟨p2, hp2, hup, ha⟩

theorem checkProjectiles_of_no_hits (e : Enemy) (ps : List Projectile)
    (hno : ∀ q ∈ ps, ¬projectileHits q e) :
    checkProjectiles e ps = ⟨ps, some e, 0, []⟩ := by
  induction ps with
  | nil => rfl
  | cons p rest ih =>
    have h1 : ¬projectileHits p e := hno p (List.mem_cons_self p rest)
    have h2 := ih fun q hq => hno q (List.mem_cons_of_mem _ hq)
    simp [checkProjectiles, h1, h2]

theorem processEnemies_gameOver_iff (pl : Player) (es : List Enemy) :
    ∀ ps, (processEnemies pl ps es).gameOver = true ↔
      ∃ e ∈ es, overlapsPlayer pl (Enemy.update e) := by
  induction es with
  | nil => intro ps; simp [processEnemies]
  | cons e rest ih =>
    intro ps
    by_cases hov : overlapsPlayer pl (Enemy.update e)
    · simp only [processEnemies, if_pos hov]
      constructor
      · intro _
        exact ⟨e, List.mem_cons_self e rest, hov⟩
      · intro _
        trivial
    · simp only [processEnemies, if_neg hov]
      rw [ih]
      constructor
      · rintro ⟨e2, he2, h2⟩
        exact ⟨e2, List.mem_cons_of_mem _ he2, h2⟩
      · rintro ⟨e2, he2, h2⟩
        rcases List.mem_cons.mp he2 with rfl | he2
        · exact absurd h2 hov
        · exact ⟨e2, he2, h2⟩

theorem mem_stepProjectiles {w h : ℝ} {ps : List Projectile} {q : Projectile} :
    q ∈ stepProjectiles w h ps ↔
      ∃ p ∈ ps, Projectile.update p = q ∧ ¬isOffScreen w h q := by
  induction ps with
  | nil => simp [stepProjectiles]
  | cons p rest ih =>
    simp only [stepProjectiles]
    by_cases hoff : isOffScreen w h (Projectile.update p)
    · simp only [if_pos hoff, ih, List.mem_cons]
      constructor
      · rintro ⟨p2, hp2, hup, ha⟩
        exact ⟨p2, Or.inr hp2, hup, ha⟩
      · rintro ⟨p2, hp2 | hp2, hup, ha⟩
        · subst hp2
          exact absurd (hup ▸ hoff) ha
        · exact ⟨p2, hp2, hup, ha⟩
    · simp only [if_neg hoff, List.mem_cons, ih]
      constructor
      · rintro (rfl | ⟨p2, hp2, hup, ha⟩)
        · exact ⟨p, Or.inl rfl, rfl, hoff⟩
        · exact ⟨p2, Or.inr hp2, hup, ha⟩
      · rintro ⟨p2, hp2 | hp2, hup, ha⟩
        · subst hp2
          exact Or.inl hup.symm
        · exact Or.inr ⟨p2, hp2, hup, ha⟩

/-- Claim C3: for every level L ≥ 1 the spawn delay is
max(200, 1000 - (L-1)*75) milliseconds and is non-increasing in the level
with floor 200 (attained from level 12 on), and the enemy speed multiplier
is 1 + (L-1)*0.2 and is strictly increasing in the level. -/
theorem difficulty_functions_spec (L M : ℕ) (hL : 1 ≤ L) (hLM : L ≤ M) :
    getSpawnDelay L = max 200 (1000 - ((L : ℤ) - 1) * 75) ∧
    getSpawnDelay M ≤ getSpawnDelay L ∧
    200 ≤ getSpawnDelay L ∧
    (12 ≤ L → getSpawnDelay L = 200) ∧
    getEnemySpeed L = 1 + ((L : ℚ) - 1) * 0.2 ∧
    (L < M → getEnemySpeed L < getEnemySpeed M) := by
  refine ⟨rfl, ?_, ?_, ?_, rfl, ?_⟩
  · unfold getSpawnDelay
    have hc : (L : ℤ) ≤ (M : ℤ) := by exact_mod_cast hLM
    omega
  · exact le_max_left _ _
  · intro h12
    unfold getSpawnDelay
    have hc : (12 : ℤ) ≤ (L : ℤ) := by exact_mod_cast h12
    omega
  · intro hlt
    unfold getEnemySpeed
    have hc : (L : ℚ) < (M : ℚ) := by exact_mod_cast hlt
    norm_num
    linarith

/-- Witness for C3 at levels 3 and 5. -/
theorem difficulty_functions_spec_witness :
    getSpawnDelay 3 = max 200 (1000 - ((3 : ℤ) - 1) * 75) ∧
    getSpawnDelay 5 ≤ getSpawnDelay 3 ∧
    200 ≤ getSpawnDelay 3 ∧
    (12 ≤ 3 → getSpawnDelay 3 = 200) ∧
    getEnemySpeed 3 = 1 + ((3 : ℚ) - 1) * 0.2 ∧
    (3 < 5 → getEnemySpeed 3 < getEnemySpeed 5) :=
  difficulty_functions_spec 3 5 (by norm_num) (by norm_num)

/-- Claim C5: for every direction of magnitude at most 1, every starting
position and every canvas at least twice the player's radius wide and high,
the clamped position after Player.update stays inside
[radius, width - radius] × [radius, height - radius]. -/
theorem player_update_within_bounds (p : Player) (dir : ℝ × ℝ) (w h : ℝ)
    (_hmag : hypot dir.1 dir.2 ≤ 1) (hw : 2 * p.radius ≤ w) (hh : 2 * p.radius ≤ h) :
    p.radius ≤ (Player.update p dir w h).x ∧ (Player.update p dir w h).x ≤ w - p.radius ∧
    p.radius ≤ (Player.update p dir w h).y ∧ (Player.update p dir w h).y ≤ h - p.radius := by
  simp only [Player.update]
  refine ⟨le_max_left _ _, ?_, le_max_left _ _, ?_⟩
  · exact max_le (by linarith) (min_le_left _ _)
  · exact max_le (by linarith) (min_le_left _ _)

/-- Witness for C5: a radius-2 player at (5,5) moving right on a 10 × 10
canvas. -/
theorem player_update_within_bounds_witness :
    (2 : ℝ) ≤ (Player.update ⟨5, 5, 2, "white", 3⟩ (1, 0) 10 10).x ∧
    (Player.update ⟨5, 5, 2, "white", 3⟩ (1, 0) 10 10).x ≤ 10 - 2 ∧
    (2 : ℝ) ≤ (Player.update ⟨5, 5, 2, "white", 3⟩ (1, 0) 10 10).y ∧
    (Player.update ⟨5, 5, 2, "white", 3⟩ (1, 0) 10 10).y ≤ 10 - 2 := by
  have hm : hypot (1 : ℝ) 0 ≤ 1 := by
    unfold hypot
    rw [show ((1 : ℝ) ^ 2 + 0 ^ 2) = 1 by norm_num, Real.sqrt_one]
  exact player_update_within_bounds ⟨5, 5, 2, "white", 3⟩ (1, 0) 10 10 hm
    (by norm_num) (by norm_num)

/-- Counterexample for claim C4: holding only the opposing keys A and D,
a mapped movement key is held, yet getDirection returns exactly (0,0), whose
magnitude is 0 rather than 1. -/
theorem direction_opposing_keys_cex :
    movementKeyHeld ["KeyA", "KeyD"] ∧
    getDirection ["KeyA", "KeyD"] = (0, 0) ∧
    hypot (getDirection ["KeyA", "KeyD"]).1 (getDirection ["KeyA", "KeyD"]).2 = 0 ∧
    (0 : ℝ) ≠ 1 := by
  have hraw : rawDirection ["KeyA", "KeyD"] = (0, 0) := by decide
  have hdir : getDirection ["KeyA", "KeyD"] = (0, 0) := by
    simp only [getDirection, hraw]
    norm_num [hypot, Real.sqrt_zero]
  refine ⟨by unfold movementKeyHeld; decide, hdir, ?_, by norm_num⟩
  rw [hdir]
  norm_num [hypot, Real.sqrt_zero]

/-- Claim C4 (amended): getDirection returns a vector of magnitude exactly 1
whenever the raw summed axis contributions of the held keys are nonzero, and
exactly (0,0) when they cancel (in particular when no mapped key is held);
simultaneously held keys sum their contributions before the single
normalization step. -/
theorem direction_normalization_amended (ks : List String) :
    (rawDirection ks ≠ (0, 0) →
      hypot (getDirection ks).1 (getDirection ks).2 = 1) ∧
    (rawDirection ks = (0, 0) → getDirection ks = (0, 0)) := by
  constructor
  · intro hne
    have hnz : ¬((((rawDirection ks).1 : ℝ)) = 0 ∧ (((rawDirection ks).2 : ℝ)) = 0) := by
      rintro ⟨h1, h2⟩
      apply hne
      have e1 : (rawDirection ks).1 = 0 := by exact_mod_cast h1
      have e2 : (rawDirection ks).2 = 0 := by exact_mod_cast h2
      exact Prod.ext e1 e2
    have hm : 0 < hypot ((rawDirection ks).1 : ℝ) ((rawDirection ks).2 : ℝ) :=
      hypot_pos hnz
    simp only [getDirection, if_pos hm]
    exact hypot_unit hnz
  · intro h0
    simp only [getDirection, h0]
    norm_num [hypot, Real.sqrt_zero]

/-- Witness for C4 (amended): with only W held the direction is a unit
vector. -/
theorem direction_normalization_amended_witness :
    rawDirection ["KeyW"] ≠ (0, 0) ∧
    hypot (getDirection ["KeyW"]).1 (getDirection ["KeyW"]).2 = 1 :=
  ⟨by decide, (direction_normalization_amended ["KeyW"]).1 (by decide)⟩

/-- Claim C6: every Particle.update lowers alpha by exactly the fixed step
0.01; the particle pass removes a particle in the same tick exactly when its
updated alpha is ≤ 0; and for a nonzero velocity the speed magnitude
strictly decreases because the friction coefficient 0.98 (carried by every
particle spawnExplosion creates) is less than 1. -/
theorem particle_fade_friction_removal (pt : Particle) :
    (Particle.update pt).alpha = pt.alpha - 0.01 ∧
    (∀ (ps : List Particle) (q : Particle), q ∈ stepParticles ps ↔
      ∃ p ∈ ps, Particle.update p = q ∧ ¬q.alpha ≤ 0) ∧
    (pt.friction = 0.98 → ¬(pt.vx = 0 ∧ pt.vy = 0) →
      hypot (Particle.update pt).vx (Particle.update pt).vy < hypot pt.vx pt.vy) ∧
    (∀ (rand : ℕ → ℝ × ℝ × ℝ) (b : Burst) (q : Particle),
      q ∈ spawnExplosion rand b → q.friction = 0.98 ∧ q.alpha = 1) := by
  refine ⟨rfl, fun ps q => mem_stepParticles, ?_, ?_⟩
  · intro hfr hnz
    have hvx : (Particle.update pt).vx = pt.vx * pt.friction := rfl
    have hvy : (Particle.update pt).vy = pt.vy * pt.friction := rfl
    have hp := hypot_pos hnz
    rw [hvx, hvy, hfr, mul_comm pt.vx, mul_comm pt.vy,
      hypot_scale _ _ _ (by norm_num)]
    linarith
  · intro rand b q hq
    simp only [spawnExplosion, List.mem_map] at hq
    obtain ⟨i, _, rfl⟩ := hq
    exact ⟨rfl, rfl⟩

/-- Witness for C6: a particle moving with velocity (3,4) slows down. -/
theorem particle_fade_friction_removal_witness :
    hypot (Particle.update ⟨0, 0, 1, ⟨0, 0, 0⟩, 3, 4, 1, 0.98⟩).vx
        (Particle.update ⟨0, 0, 1, ⟨0, 0, 0⟩, 3, 4, 1, 0.98⟩).vy <
      hypot (⟨0, 0, 1, ⟨0, 0, 0⟩, 3, 4, 1, 0.98⟩ : Particle).vx
        (⟨0, 0, 1, ⟨0, 0, 0⟩, 3, 4, 1, 0.98⟩ : Particle).vy :=
  (particle_fade_friction_removal _).2.2.1 rfl (by norm_num)

/-- Claim C7: after n ticks of the projectile pass, a projectile is still in
the collection exactly when none of its first n post-update states was
fully off-screen (the radius-aware four-edge test); equivalently it is
removed on exactly the first tick whose position update pushes its bounding
circle fully outside the canvas, and on no earlier tick. -/
theorem projectile_offscreen_removal (w h : ℝ) (n : ℕ) (ps : List Projectile)
    (q : Projectile) :
    q ∈ (stepProjectiles w h)^[n] ps ↔
      ∃ p ∈ ps, q = Projectile.update^[n] p ∧
        ∀ k, 1 ≤ k → k ≤ n → ¬isOffScreen w h (Projectile.update^[k] p) := by
  induction n generalizing ps with
  | zero =>
    simp only [Function.iterate_zero, id_eq]
    constructor
    · intro hq
      exact ⟨q, hq, rfl, fun k h1 h0 => absurd (h1.trans h0) (by omega)⟩
    · rintro ⟨p, hp, rfl, _⟩
      exact hp
  | succ n ih =>
    rw [Function.iterate_succ_apply, ih]
    constructor
    · rintro ⟨p2, hp2, rfl, hcond⟩
      obtain ⟨p, hp, hup, hoff⟩ := mem_stepProjectiles.mp hp2
      subst hup
      refine ⟨p, hp, (Function.iterate_succ_apply _ _ _).symm, ?_⟩
      intro k h1 hk
      by_cases hk1 : k = 1
      · subst hk1
        simpa using hoff
      · have h2 : 1 ≤ k - 1 := by omega
        have h3 : k - 1 ≤ n := by omega
        have := hcond (k - 1) h2 h3
        rw [← Function.iterate_succ_apply] at this
        rwa [show (k - 1).succ = k by omega] at this
    · rintro ⟨p, hp, rfl, hcond⟩
      have hoff1 : ¬isOffScreen w h (Projectile.update p) := by
        have := hcond 1 le_rfl (by omega)
        simpa using this
      refine ⟨Projectile.update p,
        mem_stepProjectiles.mpr ⟨p, hp, rfl, hoff1⟩,
        (Function.iterate_succ_apply _ _ _).symm, ?_⟩
      intro k h1 hk
      have := hcond (k + 1) (by omega) (by omega)
      rwa [Function.iterate_succ_apply] at this

/-- Witness for C7: a projectile moving right from the canvas centre is
still present after one tick because it is not yet off-screen. -/
theorem projectile_offscreen_removal_witness :
    Projectile.update ⟨50, 50, 5, "white", 10, 0⟩ ∈
      (stepProjectiles 100 100)^[1] [⟨50, 50, 5, "white", 10, 0⟩] := by
  refine (projectile_offscreen_removal 100 100 1 _ _).mpr
    ⟨⟨50, 50, 5, "white", 10, 0⟩, List.mem_singleton.mpr rfl, ?_, ?_⟩
  · simp
  · intro k h1 hk
    have hk1 : k = 1 := by omega
    subst hk1
    simp only [Function.iterate_one]
    unfold isOffScreen Projectile.update
    push_neg
    norm_num

/-- Claim C1: when a projectile overlaps an enemy, then if
enemy.radius - 10 > 5 the enemy survives with radius lowered by exactly 10,
the score rises by exactly 10, exactly one 8-particle burst is recorded and
the projectile is removed (the remaining projectiles continuing against the
shrunk enemy); otherwise the score rises by exactly 100, exactly one
24-particle burst is recorded, enemy and projectile are both removed and
the remaining projectiles are not tested against that enemy; spawnExplosion
materialises exactly the requested number of particles. -/
theorem projectile_enemy_collision_resolution (e : Enemy) (p : Projectile)
    (rest : List Projectile) (hhit : projectileHits p e) :
    (5 < e.radius - 10 →
      checkProjectiles e (p :: rest) =
        ⟨(checkProjectiles { e with radius := e.radius - 10 } rest).remaining,
         (checkProjectiles { e with radius := e.radius - 10 } rest).enemyAfter,
         10 + (checkProjectiles { e with radius := e.radius - 10 } rest).scoreDelta,
         ⟨e.x, e.y, e.color, 8⟩ ::
           (checkProjectiles { e with radius := e.radius - 10 } rest).bursts⟩) ∧
    (5 < e.radius - 10 →
      (∀ q ∈ rest, ¬projectileHits q { e with radius := e.radius - 10 }) →
      checkProjectiles e (p :: rest) =
        ⟨rest, some { e with radius := e.radius - 10 }, 10,
          [⟨e.x, e.y, e.color, 8⟩]⟩) ∧
    (¬5 < e.radius - 10 →
      checkProjectiles e (p :: rest) = ⟨rest, none, 100, [⟨e.x, e.y, e.color, 24⟩]⟩) ∧
    (∀ (rand : ℕ → ℝ × ℝ × ℝ) (b : Burst), (spawnExplosion rand b).length = b.count) := by
  refine ⟨?_, ?_, ?_, ?_⟩
  · intro hbig
    simp [checkProjectiles, hhit, hbig]
  · intro hbig hno
    simp [checkProjectiles, hhit, hbig, checkProjectiles_of_no_hits _ rest hno]
  · intro hsmall
    simp [checkProjectiles, hhit, hsmall]
  · intro rand b
    simp [spawnExplosion]

/-- Witness for C1: a single projectile overlapping a radius-20 enemy
shrinks it to radius 10, scores 10 and requests one 8-particle burst. -/
theorem projectile_enemy_collision_resolution_witness :
    checkProjectiles ⟨0, 0, 20, ⟨120, 50, 50⟩, 0, 0⟩ [⟨0, 0, 5, "white", 0, 0⟩] =
      ⟨[], some ⟨0, 0, 10, ⟨120, 50, 50⟩, 0, 0⟩, 10, [⟨0, 0, ⟨120, 50, 50⟩, 8⟩]⟩ := by
  have hhit : projectileHits (⟨0, 0, 5, "white", 0, 0⟩ : Projectile)
      ⟨0, 0, 20, ⟨120, 50, 50⟩, 0, 0⟩ := by
    show hypot ((0 : ℝ) - 0) (0 - 0) - 20 - 5 < 1
    norm_num [hypot, Real.sqrt_zero]
  have h := (projectile_enemy_collision_resolution ⟨0, 0, 20, ⟨120, 50, 50⟩, 0, 0⟩
      ⟨0, 0, 5, "white", 0, 0⟩ [] hhit).2.1
    (by show (5 : ℝ) < 20 - 10; norm_num)
    (by intro q hq; simp at hq)
  norm_num at h
  convert h using 2

theorem abs_mk_eq_hypot (x y : ℝ) : Complex.abs ⟨x, y⟩ = hypot x y := by
  rw [Complex.abs_apply, Complex.normSq_mk]
  unfold hypot
  congr 1
  ring

/-- Claim C10: fireProjectile creates exactly one projectile, at the
player's position, radius 5, with a velocity of magnitude exactly 5 pointing
from the player toward the target; when the target coincides with the
player the two-argument arctangent of (0,0) is 0, so the projectile is still
fired with velocity (5, 0). -/
theorem fire_projectile_spec (pl : Player) (tx ty : ℝ) :
    (fireProjectile pl tx ty).x = pl.x ∧
    (fireProjectile pl tx ty).y = pl.y ∧
    (fireProjectile pl tx ty).radius = 5 ∧
    hypot (fireProjectile pl tx ty).vx (fireProjectile pl tx ty).vy = 5 ∧
    ((tx, ty) ≠ (pl.x, pl.y) →
      (fireProjectile pl tx ty).vx * hypot (tx - pl.x) (ty - pl.y) = 5 * (tx - pl.x) ∧
      (fireProjectile pl tx ty).vy * hypot (tx - pl.x) (ty - pl.y) = 5 * (ty - pl.y)) ∧
    (tx = pl.x → ty = pl.y →
      (fireProjectile pl tx ty).vx = 5 ∧ (fireProjectile pl tx ty).vy = 0) ∧
    (∀ s : SessionState, (fireAt s tx ty).projectiles
      = s.projectiles ++ [fireProjectile s.player tx ty]) := by
  refine ⟨rfl, rfl, rfl, ?_, ?_, ?_, fun s => rfl⟩
  · exact hypot_cos_sin _ 5 (by norm_num)
  · intro hne
    have hz : (⟨tx - pl.x, ty - pl.y⟩ : ℂ) ≠ 0 := by
      intro h0
      apply hne
      have h1 := congrArg Complex.re h0
      have h2 := congrArg Complex.im h0
      simp only [Complex.zero_re, Complex.zero_im] at h1 h2
      have e1 : tx = pl.x := by linarith
      have e2 : ty = pl.y := by linarith
      rw [Prod.ext_iff]
      exact ⟨e1, e2⟩
    have habs0 : Complex.abs ⟨tx - pl.x, ty - pl.y⟩ ≠ 0 :=
      Complex.abs.ne_zero hz
    constructor
    · show Real.cos (atan2 (ty - pl.y) (tx - pl.x)) * 5 * hypot (tx - pl.x) (ty - pl.y)
        = 5 * (tx - pl.x)
      unfold atan2
      rw [Complex.cos_arg hz, ← abs_mk_eq_hypot]
      field_simp
      ring
    · show Real.sin (atan2 (ty - pl.y) (tx - pl.x)) * 5 * hypot (tx - pl.x) (ty - pl.y)
        = 5 * (ty - pl.y)
      unfold atan2
      rw [Complex.sin_arg, ← abs_mk_eq_hypot]
      field_simp
      ring
  · intro hx hy
    have hz0 : (⟨tx - pl.x, ty - pl.y⟩ : ℂ) = 0 := by
      rw [Complex.ext_iff]
      constructor
      · simp [hx]
      · simp [hy]
    constructor
    · show Real.cos (atan2 (ty - pl.y) (tx - pl.x)) * 5 = 5
      unfold atan2
      rw [hz0, Complex.arg_zero, Real.cos_zero, one_mul]
    · show Real.sin (atan2 (ty - pl.y) (tx - pl.x)) * 5 = 0
      unfold atan2
      rw [hz0, Complex.arg_zero, Real.sin_zero, zero_mul]

/-- Witness for C10: firing at the player's own position still produces the
velocity (5, 0). -/
theorem fire_projectile_spec_witness :
    (fireProjectile ⟨7, 9, 10, "white", 3⟩ 7 9).vx = 5 ∧
    (fireProjectile ⟨7, 9, 10, "white", 3⟩ 7 9).vy = 0 :=
  (fire_projectile_spec ⟨7, 9, 10, "white", 3⟩ 7 9).2.2.2.2.2.1 rfl rfl

/-- Claim C8: for draws in [0,1) the spawned enemy has radius in [4,30),
hue in [0,360) at 50% saturation and lightness, sits on a uniformly chosen
edge (vertical when the edge draw is < 0.5, horizontal otherwise) offset
outward by exactly its radius, and its velocity is (cos θ, sin θ) scaled by
getEnemySpeed of the current level, with θ the two-argument arctangent from
the spawn point to the player's position. -/
theorem spawn_enemy_spec (w h : ℝ) (pl : Player) (lvl : ℕ) (d : SpawnDraws)
    (h1a : 0 ≤ d.r1) (h1b : d.r1 < 1) (h5a : 0 ≤ d.r5) (h5b : d.r5 < 1) :
    (4 ≤ (spawnEnemy w h pl lvl d).radius ∧ (spawnEnemy w h pl lvl d).radius < 30) ∧
    (0 ≤ (spawnEnemy w h pl lvl d).color.hue ∧ (spawnEnemy w h pl lvl d).color.hue < 360) ∧
    (spawnEnemy w h pl lvl d).color.sat = 50 ∧
    (spawnEnemy w h pl lvl d).color.light = 50 ∧
    (d.r2 < 0.5 →
      (spawnEnemy w h pl lvl d).x = 0 - (spawnEnemy w h pl lvl d).radius ∨
      (spawnEnemy w h pl lvl d).x = w + (spawnEnemy w h pl lvl d).radius) ∧
    (¬d.r2 < 0.5 →
      (spawnEnemy w h pl lvl d).y = 0 - (spawnEnemy w h pl lvl d).radius ∨
      (spawnEnemy w h pl lvl d).y = h + (spawnEnemy w h pl lvl d).radius) ∧
    (spawnEnemy w h pl lvl d).vx =
      Real.cos (atan2 (pl.y - (spawnEnemy w h pl lvl d).y)
        (pl.x - (spawnEnemy w h pl lvl d).x)) * ((getEnemySpeed lvl : ℚ) : ℝ) ∧
    (spawnEnemy w h pl lvl d).vy =
      Real.sin (atan2 (pl.y - (spawnEnemy w h pl lvl d).y)
        (pl.x - (spawnEnemy w h pl lvl d).x)) * ((getEnemySpeed lvl : ℚ) : ℝ) := by
  refine ⟨⟨?_, ?_⟩, ⟨?_, ?_⟩, rfl, rfl, ?_, ?_, rfl, rfl⟩
  · show 4 ≤ d.r1 * (30 - 4) + 4
    nlinarith
  · show d.r1 * (30 - 4) + 4 < 30
    nlinarith
  · show 0 ≤ d.r5 * 360
    nlinarith
  · show d.r5 * 360 < 360
    nlinarith
  · intro h2
    simp only [spawnEnemy, if_pos h2]
    by_cases h3 : d.r3 < (0.5 : ℝ)
    · exact Or.inl (by simp [h3])
    · exact Or.inr (by simp [h3])
  · intro h2
    simp only [spawnEnemy, if_neg h2]
    by_cases h4 : d.r4 < (0.5 : ℝ)
    · exact Or.inl (by simp [h4])
    · exact Or.inr (by simp [h4])

/-- Witness for C8: the all-zero draws at level 1 on a 100 × 100 canvas
spawn a radius-4 enemy on the left edge. -/
theorem spawn_enemy_spec_witness :
    (4 ≤ (spawnEnemy 100 100 ⟨50, 50, 10, "white", 3⟩ 1 ⟨0, 0, 0, 0, 0⟩).radius ∧
      (spawnEnemy 100 100 ⟨50, 50, 10, "white", 3⟩ 1 ⟨0, 0, 0, 0, 0⟩).radius < 30) ∧
    (0 ≤ (spawnEnemy 100 100 ⟨50, 50, 10, "white", 3⟩ 1 ⟨0, 0, 0, 0, 0⟩).color.hue ∧
      (spawnEnemy 100 100 ⟨50, 50, 10, "white", 3⟩ 1 ⟨0, 0, 0, 0, 0⟩).color.hue < 360) ∧
    (spawnEnemy 100 100 ⟨50, 50, 10, "white", 3⟩ 1 ⟨0, 0, 0, 0, 0⟩).color.sat = 50 ∧
    (spawnEnemy 100 100 ⟨50, 50, 10, "white", 3⟩ 1 ⟨0, 0, 0, 0, 0⟩).color.light = 50 ∧
    ((0 : ℝ) < 0.5 →
      (spawnEnemy 100 100 ⟨50, 50, 10, "white", 3⟩ 1 ⟨0, 0, 0, 0, 0⟩).x =
        0 - (spawnEnemy 100 100 ⟨50, 50, 10, "white", 3⟩ 1 ⟨0, 0, 0, 0, 0⟩).radius ∨
      (spawnEnemy 100 100 ⟨50, 50, 10, "white", 3⟩ 1 ⟨0, 0, 0, 0, 0⟩).x =
        100 + (spawnEnemy 100 100 ⟨50, 50, 10, "white", 3⟩ 1 ⟨0, 0, 0, 0, 0⟩).radius) ∧
    (¬(0 : ℝ) < 0.5 →
      (spawnEnemy 100 100 ⟨50, 50, 10, "white", 3⟩ 1 ⟨0, 0, 0, 0, 0⟩).y =
        0 - (spawnEnemy 100 100 ⟨50, 50, 10, "white", 3⟩ 1 ⟨0, 0, 0, 0, 0⟩).radius ∨
      (spawnEnemy 100 100 ⟨50, 50, 10, "white", 3⟩ 1 ⟨0, 0, 0, 0, 0⟩).y =
        100 + (spawnEnemy 100 100 ⟨50, 50, 10, "white", 3⟩ 1 ⟨0, 0, 0, 0, 0⟩).radius) ∧
    (spawnEnemy 100 100 ⟨50, 50, 10, "white", 3⟩ 1 ⟨0, 0, 0, 0, 0⟩).vx =
      Real.cos (atan2 ((⟨50, 50, 10, "white", 3⟩ : Player).y -
          (spawnEnemy 100 100 ⟨50, 50, 10, "white", 3⟩ 1 ⟨0, 0, 0, 0, 0⟩).y)
        ((⟨50, 50, 10, "white", 3⟩ : Player).x -
          (spawnEnemy 100 100 ⟨50, 50, 10, "white", 3⟩ 1 ⟨0, 0, 0, 0, 0⟩).x)) *
        ((getEnemySpeed 1 : ℚ) : ℝ) ∧
    (spawnEnemy 100 100 ⟨50, 50, 10, "white", 3⟩ 1 ⟨0, 0, 0, 0, 0⟩).vy =
      Real.sin (atan2 ((⟨50, 50, 10, "white", 3⟩ : Player).y -
          (spawnEnemy 100 100 ⟨50, 50, 10, "white", 3⟩ 1 ⟨0, 0, 0, 0, 0⟩).y)
        ((⟨50, 50, 10, "white", 3⟩ : Player).x -
          (spawnEnemy 100 100 ⟨50, 50, 10, "white", 3⟩ 1 ⟨0, 0, 0, 0, 0⟩).x)) *
        ((getEnemySpeed 1 : ℚ) : ℝ) :=
  spawn_enemy_spec 100 100 ⟨50, 50, 10, "white", 3⟩ 1 ⟨0, 0, 0, 0, 0⟩
    (by show (0 : ℝ) ≤ 0; norm_num) (by show (0 : ℝ) < 1; norm_num)
    (by show (0 : ℝ) ≤ 0; norm_num) (by show (0 : ℝ) < 1; norm_num)

/-- Claim C9: after a session has ended, restarting yields a state with
score 0, level 1 and empty projectile, enemy and particle collections; the
new state is exactly initSession of the canvas, built without consulting
anything from the ended session. -/
theorem restart_fresh_session (old : SessionState) (n : ℕ) (w h : ℝ)
    (_hended : old.finalScore = some n) :
    (restartSession old w h).score = 0 ∧
    (restartSession old w h).level = 1 ∧
    (restartSession old w h).projectiles = [] ∧
    (restartSession old w h).enemies = [] ∧
    (restartSession old w h).particles = [] ∧
    restartSession old w h = initSession w h :=
  ⟨rfl, rfl, rfl, rfl, rfl, rfl⟩

/-- Witness for C9: restarting after a session that ended with score 5. -/
theorem restart_fresh_session_witness :
    (restartSession { initSession 1 1 with finalScore := some 5 } 100 100).score = 0 ∧
    (restartSession { initSession 1 1 with finalScore := some 5 } 100 100).level = 1 ∧
    (restartSession { initSession 1 1 with finalScore := some 5 } 100 100).projectiles = [] ∧
    (restartSession { initSession 1 1 with finalScore := some 5 } 100 100).enemies = [] ∧
    (restartSession { initSession 1 1 with finalScore := some 5 } 100 100).particles = [] ∧
    restartSession { initSession 1 1 with finalScore := some 5 } 100 100 =
      initSession 100 100 :=
  restart_fresh_session { initSession 1 1 with finalScore := some 5 } 5 100 100 rfl

/-- Claim C2: when some enemy's updated position overlaps the updated
player, the frame performs the terminal transition: the animation loop, the
spawn timeout and the level interval are all cancelled, the canvas click,
canvas mousemove and window key listeners are all detached, endGame receives
the current score, and afterwards no frame, spawn or level-up invocation
changes the session state. -/
theorem player_enemy_terminal_transition (w h : ℝ) (dir : ℝ × ℝ)
    (draws : ℕ → ℕ → ℝ × ℝ × ℝ) (s : SessionState)
    (hrun : s.animActive = true)
    (hhit : ∃ e ∈ s.enemies,
      overlapsPlayer (Player.update s.player dir w h) (Enemy.update e)) :
    (stepEvent w h s (.frame dir draws)).animActive = false ∧
    (stepEvent w h s (.frame dir draws)).spawnActive = false ∧
    (stepEvent w h s (.frame dir draws)).levelActive = false ∧
    (stepEvent w h s (.frame dir draws)).clickAttached = false ∧
    (stepEvent w h s (.frame dir draws)).moveAttached = false ∧
    (stepEvent w h s (.frame dir draws)).spaceKeyAttached = false ∧
    (stepEvent w h s (.frame dir draws)).inputKeysAttached = false ∧
    (stepEvent w h s (.frame dir draws)).finalScore
      = some (stepEvent w h s (.frame dir draws)).score ∧
    (∀ ev : GameEvent, stepEvent w h (stepEvent w h s (.frame dir draws)) ev
      = stepEvent w h s (.frame dir draws)) := by
  have hstep : stepEvent w h s (.frame dir draws) = animateTick w h dir draws s := by
    simp [stepEvent, hrun]
  have hgo : (processEnemies (Player.update s.player dir w h)
      (stepProjectiles w h s.projectiles) s.enemies.reverse).gameOver = true := by
    rw [processEnemies_gameOver_iff]
    obtain ⟨e, he, hov⟩ := hhit
    exact ⟨e, List.mem_reverse.mpr he, hov⟩
  rw [hstep]
  simp only [animateTick, hgo, if_true]
  refine ⟨trivial, trivial, trivial, trivial, trivial, trivial, trivial, trivial, ?_⟩
  intro ev
  cases ev <;> simp [stepEvent]

/-- Witness for C2: a session whose only enemy sits on the player. -/
theorem player_enemy_terminal_transition_witness :
    (stepEvent 100 100
      ⟨⟨50, 50, 10, "white", 3⟩, [], [⟨50, 50, 10, ⟨0, 50, 50⟩, 0, 0⟩], [], 0, 1,
        true, true, true, true, true, true, true, none⟩
      (.frame (0, 0) fun _ _ => (0, 0, 0))).animActive = false ∧
    (stepEvent 100 100
      ⟨⟨50, 50, 10, "white", 3⟩, [], [⟨50, 50, 10, ⟨0, 50, 50⟩, 0, 0⟩], [], 0, 1,
        true, true, true, true, true, true, true, none⟩
      (.frame (0, 0) fun _ _ => (0, 0, 0))).spawnActive = false ∧
    (stepEvent 100 100
      ⟨⟨50, 50, 10, "white", 3⟩, [], [⟨50, 50, 10, ⟨0, 50, 50⟩, 0, 0⟩], [], 0, 1,
        true, true, true, true, true, true, true, none⟩
      (.frame (0, 0) fun _ _ => (0, 0, 0))).levelActive = false := by
  have hov : overlapsPlayer
      (Player.update ⟨50, 50, 10, "white", 3⟩ (0, 0) 100 100)
      (Enemy.update ⟨50, 50, 10, ⟨0, 50, 50⟩, 0, 0⟩) := by
    unfold overlapsPlayer Player.update Enemy.update hypot
    norm_num [Real.sqrt_zero]
  have h := player_enemy_terminal_transition 100 100 (0, 0) (fun _ _ => (0, 0, 0))
    ⟨⟨50, 50, 10, "white", 3⟩, [], [⟨50, 50, 10, ⟨0, 50, 50⟩, 0, 0⟩], [], 0, 1,
      true, true, true, true, true, true, true, none⟩
    rfl ⟨⟨50, 50, 10, ⟨0, 50, 50⟩, 0, 0⟩, List.mem_singleton.mpr rfl, hov⟩
  exact ⟨h.1, h.2.1, h.2.2.1⟩
